import Mathlib

/-!
Verification of the Alarm State Observation and Reconciliation Engine of the
alarm-kit-app repository.  The engine is the Swift code of
`plans/006-observe-state-changes.md` (`ExpoAlarmKitModule`): the tick handler
`handleAlarmListChanged`, the diff routine `detectStateChanges`, the event
builders `sendAlarmStateChangedEvent` and `serializeAlarm`, and the lifecycle
operations `startAlarmObservation` / `stopAlarmObservation` / `deinit`.

Embedding choices, each taken from the source:
* An alarm is its serialized view: an `id`, a `state` rendered as a string
  (the code only ever compares and stringifies states), and an optional fixed
  fire date (`if case .fixed(let date) = alarm.schedule`).  Dates and counts
  are modelled as `Int` (the `Double` arithmetic is never used, only stored).
* Event payloads are association lists of key/value pairs, in the order the
  Swift code inserts them into its `[String: Any]` dictionaries.
* `Dictionary(uniqueKeysWithValues:)` traps (fatal runtime error, process
  crash) when two pairs share a key.  `detectStateChanges` therefore returns
  `none` exactly when either snapshot has a duplicate id, and the tick result
  records the trap in a `crashed` flag; in the trap case the events published
  before the trap are kept in the trace.
* Swift `Dictionary` iteration order is unspecified; the embedding iterates
  in snapshot list order (one deterministic pick).  No theorem below depends
  on the relative order of per-alarm events, only on membership and on the
  position of the `alarmListChanged` event, which the code publishes before
  calling `detectStateChanges` regardless of iteration order.
* The body of the tick handler is a trace of primitive `Action`s in source
  execution order — the assignment `lastKnownAlarms = currentAlarms` and each
  `sendEvent` call — so ordering properties of the handler are statable.
* `AlarmManager.shared.$alarms` is a Combine `@Published` projection, whose
  `sink` synchronously delivers the current value to a new subscriber.
  `startAlarmObservation` therefore runs one tick against the snapshot that
  is current at subscription time, before the observer handle is stored.
-/

namespace AlarmObservation

/-- Serialized alarm value, as the observation code sees it: the id string,
the state rendered as a string, and the fixed-schedule fire date when the
alarm has one. -/
structure Alarm where
  id : String
  state : String
  fireDate : Option Int
deriving DecidableEq, Repr

/-- Payload values appearing in the event dictionaries: strings and numbers. -/
inductive Value where
  | str : String → Value
  | num : Int → Value
deriving DecidableEq, Repr

/-- An event sent to JavaScript: the event name passed to `sendEvent` and the
payload dictionary, kept as an association list in insertion order. -/
structure Event where
  name : String
  payload : List (String × Value)
deriving DecidableEq, Repr

/-- Primitive effects of the tick handler, in source execution order: the
assignment to the stored snapshot `lastKnownAlarms`, and one `sendEvent`
call. -/
inductive Action where
  | setLast : List Alarm → Action
  | publish : Event → Action
deriving DecidableEq, Repr

/-- Result of one invocation of the tick handler: the trace of effects it
performed, and whether it hit the `Dictionary(uniqueKeysWithValues:)` trap
(which kills the process; effects already performed stay in the trace). -/
structure TickResult where
  actions : List Action
  crashed : Bool
deriving DecidableEq, Repr

/-- Translation of `serializeAlarm`: id and state always, `fireDate` only for
a fixed schedule. -/
def serializeAlarm (a : Alarm) : List (String × Value) :=
  let dict := [("id", Value.str a.id), ("state", Value.str a.state)]
  match a.fireDate with
  | some d => dict ++ [("fireDate", Value.num d)]
  | none => dict

/-- Payload built by `sendAlarmStateChangedEvent`: the serialized alarm plus
`previousState`, `newState` and a publish-time `timestamp`. -/
def eventData (now : Int) (a : Alarm) (previousState newState : String) :
    List (String × Value) :=
  serializeAlarm a ++
    [("previousState", Value.str previousState),
     ("newState", Value.str newState),
     ("timestamp", Value.num now)]

/-- Translation of `sendAlarmStateChangedEvent`: it always sends
`alarmStateChanged`, and additionally sends `alarmFired` with the very same
payload when the new state is `running`. -/
def sendAlarmStateChangedEvent (now : Int) (a : Alarm)
    (previousState newState : String) : List Event :=
  Event.mk "alarmStateChanged" (eventData now a previousState newState) ::
    (if newState = "running" then
      [Event.mk "alarmFired" (eventData now a previousState newState)]
    else [])

/-- Dictionary lookup by id: the first alarm with the given id, which is the
unique one when ids are duplicate-free (the only case in which the source's
dictionaries exist at all). -/
def lookupAlarm : List Alarm → String → Option Alarm
  | [], _ => none
  | a :: rest, i => if a.id = i then some a else lookupAlarm rest i

/-- The snapshot invariant checked by `Dictionary(uniqueKeysWithValues:)`:
all ids in the snapshot are distinct. -/
def hasUniqueIds (xs : List Alarm) : Prop := (xs.map Alarm.id).Nodup

instance (xs : List Alarm) : Decidable (hasUniqueIds xs) :=
  List.nodupDecidable (xs.map Alarm.id)

/-- Events produced for one alarm of the current snapshot by the first loop
of `detectStateChanges`: a state-changed event when the alarm exists in the
previous snapshot with a different state, an `alarmAdded` event when it is
new, nothing otherwise. -/
def eventsForCurrentAlarm (now : Int) (previous : List Alarm) (c : Alarm) :
    List Event :=
  match lookupAlarm previous c.id with
  | some p =>
      if p.state ≠ c.state then
        sendAlarmStateChangedEvent now c p.state c.state
      else []
  | none => [Event.mk "alarmAdded" (serializeAlarm c)]

/-- First loop of `detectStateChanges`, over the current snapshot. -/
def perAlarmCurrentEvents (now : Int) (previous : List Alarm) :
    List Alarm → List Event
  | [] => []
  | c :: rest =>
      eventsForCurrentAlarm now previous c ++
        perAlarmCurrentEvents now previous rest

/-- Second loop of `detectStateChanges`: an `alarmRemoved` event, carrying the
id and the last known state, for each previous alarm missing from the current
snapshot. -/
def removedEvents (current : List Alarm) : List Alarm → List Event
  | [] => []
  | p :: rest =>
      (if (lookupAlarm current p.id).isNone then
        [Event.mk "alarmRemoved"
          [("id", Value.str p.id), ("lastState", Value.str p.state)]]
      else []) ++ removedEvents current rest

/-- Translation of `detectStateChanges`.  Building `previousDict` and
`currentDict` with `Dictionary(uniqueKeysWithValues:)` traps on a duplicate
id, before any per-alarm event is sent: that case is `none`. -/
def detectStateChanges (now : Int) (previous current : List Alarm) :
    Option (List Event) :=
  if hasUniqueIds previous ∧ hasUniqueIds current then
    some (perAlarmCurrentEvents now previous current ++
      removedEvents current previous)
  else none

/-- The `alarmListChanged` event built by `handleAlarmListChanged`: total
count, count of alarms in state `scheduled`, publish-time timestamp. -/
def listChangedEvent (now : Int) (current : List Alarm) : Event :=
  Event.mk "alarmListChanged"
    [("totalCount", Value.num (Int.ofNat current.length)),
     ("scheduledCount", Value.num (Int.ofNat
       (current.filter (fun a => a.state = "scheduled")).length)),
     ("timestamp", Value.num now)]

/-- Translation of `handleAlarmListChanged`, as its trace of effects in
source order: first the assignment `lastKnownAlarms = currentAlarms`, then
the `alarmListChanged` publish, then the events of `detectStateChanges`; when
the latter traps on a duplicate id the trace stops there and the result is
marked crashed. -/
def handleAlarmListChanged (now : Int)
    (lastKnownAlarms currentAlarms : List Alarm) : TickResult :=
  match detectStateChanges now lastKnownAlarms currentAlarms with
  | some evs =>
      TickResult.mk
        (Action.setLast currentAlarms ::
          Action.publish (listChangedEvent now currentAlarms) ::
          evs.map Action.publish)
        false
  | none =>
      TickResult.mk
        [Action.setLast currentAlarms,
         Action.publish (listChangedEvent now currentAlarms)]
        true

/-- Events published by a list of actions, in order. -/
def publishedEvents (acts : List Action) : List Event :=
  acts.filterMap fun a =>
    match a with
    | Action.publish e => some e
    | Action.setLast _ => none

/-- Events published during one observation cycle on the given previous and
current snapshots. -/
def cycleEvents (now : Int) (previous current : List Alarm) : List Event :=
  publishedEvents (handleAlarmListChanged now previous current).actions

/-- Whether an action is a `sendEvent` call. -/
def isPublish : Action → Bool
  | Action.publish _ => true
  | Action.setLast _ => false

/-- Property language for claim C1: the stored snapshot is assigned only
after all publishes, i.e. no publish action follows any `setLast` action in
the trace. -/
def noPublishAfterSetLast : List Action → Bool
  | [] => true
  | Action.setLast _ :: rest =>
      rest.all (fun a => !isPublish a) && noPublishAfterSetLast rest
  | Action.publish _ :: rest => noPublishAfterSetLast rest

/-- State of `ExpoAlarmKitModule` that the observation feature touches: the
stored subscription (`alarmObserver`, a handle when subscribed), the
`isObserving` flag, and the cached snapshot `lastKnownAlarms`. -/
structure ModuleState where
  alarmObserver : Option Nat
  isObserving : Bool
  lastKnownAlarms : List Alarm
deriving DecidableEq, Repr

/-- Module state at creation: no observer, not observing, empty cache. -/
def initialModuleState : ModuleState := ModuleState.mk none false []

/-- Effect of a handler trace on the module state: `setLast` writes the
cached snapshot, publishes leave the state alone. -/
def applyActions (st : ModuleState) : List Action → ModuleState
  | [] => st
  | Action.setLast snap :: rest =>
      applyActions { st with lastKnownAlarms := snap } rest
  | Action.publish _ :: rest => applyActions st rest

/-- Translation of `startAlarmObservation` together with the Combine
semantics of subscribing to a `@Published` value: `guard !isObserving` makes
it a no-op when already observing; otherwise it sets `isObserving`, and the
`sink` call synchronously delivers the current alarm list, running
`handleAlarmListChanged` against the cached snapshot, after which the
returned cancellable is stored in `alarmObserver` (unless the handler
trapped, in which case the process died before the assignment). -/
def startAlarmObservation (st : ModuleState) (handle : Nat)
    (currentAlarms : List Alarm) (now : Int) : ModuleState × TickResult :=
  if st.isObserving then (st, TickResult.mk [] false)
  else
    let r := handleAlarmListChanged now st.lastKnownAlarms currentAlarms
    let st1 := applyActions { st with isObserving := true } r.actions
    if r.crashed then (st1, r)
    else ({ st1 with alarmObserver := some handle }, r)

/-- Translation of `stopAlarmObservation`: cancel and drop the observer,
clear the flag, clear the cached snapshot. -/
def stopAlarmObservation (st : ModuleState) : ModuleState :=
  { st with alarmObserver := none, isObserving := false, lastKnownAlarms := [] }

/-- Translation of `deinit`, which just calls `stopAlarmObservation`. -/
def moduleDeinit (st : ModuleState) : ModuleState := stopAlarmObservation st

/-- One delivery of the subscription after start: the handler runs against
the cached snapshot and its trace is applied to the module state. -/
def observationTick (st : ModuleState) (currentAlarms : List Alarm)
    (now : Int) : ModuleState × TickResult :=
  let r := handleAlarmListChanged now st.lastKnownAlarms currentAlarms
  (applyActions st r.actions, r)

/-- Module states reachable from creation through the public operations and
subscription deliveries of a live (non-crashed) process. -/
inductive Reachable : ModuleState → Prop where
  | init : Reachable initialModuleState
  | start : ∀ st handle cur now, Reachable st →
      (startAlarmObservation st handle cur now).2.crashed = false →
      Reachable (startAlarmObservation st handle cur now).1
  | stop : ∀ st, Reachable st → Reachable (stopAlarmObservation st)
  | deinitStep : ∀ st, Reachable st → Reachable (moduleDeinit st)
  | tick : ∀ st cur now, Reachable st →
      (observationTick st cur now).2.crashed = false →
      Reachable (observationTick st cur now).1

/-! Helper lemmas about the embedded operations. -/

/-- Publishing actions do not change the module state. -/
theorem applyActions_publishes (st : ModuleState) (evs : List Event) :
    applyActions st (evs.map Action.publish) = st := by
  induction evs generalizing st with
  | nil => rfl
  | cons e rest ih => simpa [applyActions] using ih st

/-- The net effect of a tick handler trace on the module state is exactly the
assignment of the current snapshot to `lastKnownAlarms`. -/
theorem applyActions_handler (st : ModuleState) (now : Int)
    (prev cur : List Alarm) :
    applyActions st (handleAlarmListChanged now prev cur).actions =
      { st with lastKnownAlarms := cur } := by
  unfold handleAlarmListChanged
  cases detectStateChanges now prev cur with
  | none => rfl
  | some evs => simpa [applyActions] using applyActions_publishes _ evs

/-- Dropping a leading snapshot assignment from the published events. -/
theorem publishedEvents_cons_setLast (snap : List Alarm)
    (rest : List Action) :
    publishedEvents (Action.setLast snap :: rest) = publishedEvents rest := by
  simp [publishedEvents, List.filterMap_cons]

/-- Peeling a leading publish off the published events. -/
theorem publishedEvents_cons_publish (e : Event) (rest : List Action) :
    publishedEvents (Action.publish e :: rest) =
      e :: publishedEvents rest := by
  simp [publishedEvents, List.filterMap_cons]

/-- A trace of pure publishes publishes exactly its events. -/
theorem publishedEvents_map (evs : List Event) :
    publishedEvents (evs.map Action.publish) = evs := by
  induction evs with
  | nil => rfl
  | cons e rest ih =>
      rw [List.map_cons, publishedEvents_cons_publish, ih]

/-- Events of a cycle whose diff succeeded: the list-changed event first, then
the diff events. -/
theorem cycleEvents_eq_detect (now : Int) (prev cur : List Alarm)
    (evs : List Event) (h : detectStateChanges now prev cur = some evs) :
    cycleEvents now prev cur = listChangedEvent now cur :: evs := by
  simp only [cycleEvents, handleAlarmListChanged, h,
    publishedEvents_cons_setLast, publishedEvents_cons_publish,
    publishedEvents_map]

/-- Events of a cycle that trapped on a duplicate id: just the list-changed
event, published before the trap. -/
theorem cycleEvents_eq_crash (now : Int) (prev cur : List Alarm)
    (h : detectStateChanges now prev cur = none) :
    cycleEvents now prev cur = [listChangedEvent now cur] := by
  simp only [cycleEvents, handleAlarmListChanged, h,
    publishedEvents_cons_setLast, publishedEvents_cons_publish]
  rfl

/-- With duplicate-free ids, looking up the id of a member returns exactly
that member. -/
theorem lookupAlarm_mem_self (xs : List Alarm) (h : hasUniqueIds xs)
    (a : Alarm) (ha : a ∈ xs) : lookupAlarm xs a.id = some a := by
  induction xs with
  | nil => cases ha
  | cons x rest ih =>
      unfold hasUniqueIds at h
      rw [List.map_cons, List.nodup_cons] at h
      rcases List.mem_cons.mp ha with rfl | ha2
      · unfold lookupAlarm
        rw [if_pos rfl]
      · have hx : x.id ≠ a.id := by
          intro he
          exact h.1 (he ▸ List.mem_map_of_mem Alarm.id ha2)
        unfold lookupAlarm
        rw [if_neg hx]
        exact ih h.2 ha2

/-- With duplicate-free ids, two members sharing an id are the same alarm. -/
theorem eq_of_mem_of_same_id (xs : List Alarm) (h : hasUniqueIds xs)
    (a b : Alarm) (ha : a ∈ xs) (hb : b ∈ xs) (hid : a.id = b.id) : a = b := by
  have h1 := lookupAlarm_mem_self xs h a ha
  have h2 := lookupAlarm_mem_self xs h b hb
  rw [hid, h2] at h1
  exact (Option.some.injEq _ _ ▸ h1).symm

/-- The serialized alarm dictionary has no timestamp key. -/
theorem timestamp_not_mem_serializeAlarm (a : Alarm) (v : Value) :
    ("timestamp", v) ∉ serializeAlarm a := by
  unfold serializeAlarm
  cases a.fireDate <;> simp

/-- The serialized alarm dictionary has no newState key. -/
theorem newState_not_mem_serializeAlarm (a : Alarm) (v : Value) :
    ("newState", v) ∉ serializeAlarm a := by
  unfold serializeAlarm
  cases a.fireDate <;> simp

/-- The id key of the serialized alarm dictionary holds exactly the alarm id. -/
theorem id_mem_serializeAlarm (a : Alarm) (j : String) :
    ("id", Value.str j) ∈ serializeAlarm a ↔ j = a.id := by
  unfold serializeAlarm
  cases a.fireDate <;> simp

/-- The state-changed payload holds `newState = s` exactly for the new state
it was built with. -/
theorem newState_mem_eventData (now : Int) (a : Alarm)
    (ps ns s : String) :
    ("newState", Value.str s) ∈ eventData now a ps ns ↔ s = ns := by
  unfold eventData
  simp [newState_not_mem_serializeAlarm]

/-- The state-changed payload carries the publish-time timestamp. -/
theorem timestamp_mem_eventData (now : Int) (a : Alarm) (ps ns : String) :
    ("timestamp", Value.num now) ∈ eventData now a ps ns := by
  unfold eventData
  simp

/-- The state-changed payload holds `id = j` exactly for the alarm it was
built from. -/
theorem id_mem_eventData (now : Int) (a : Alarm) (ps ns : String)
    (j : String) :
    ("id", Value.str j) ∈ eventData now a ps ns ↔ j = a.id := by
  unfold eventData
  simp [id_mem_serializeAlarm]

/-- Membership of a fired event in the output of the state-changed sender:
only the shared payload, and only when the new state is running. -/
theorem fired_mem_send (now : Int) (a : Alarm) (ps ns : String)
    (p : List (String × Value)) :
    Event.mk "alarmFired" p ∈ sendAlarmStateChangedEvent now a ps ns ↔
      (p = eventData now a ps ns ∧ ns = "running") := by
  unfold sendAlarmStateChangedEvent
  by_cases hr : ns = "running" <;> simp [hr]

/-- Membership of a state-changed event in the output of the state-changed
sender. -/
theorem sc_mem_send (now : Int) (a : Alarm) (ps ns : String)
    (p : List (String × Value)) :
    Event.mk "alarmStateChanged" p ∈ sendAlarmStateChangedEvent now a ps ns ↔
      p = eventData now a ps ns := by
  unfold sendAlarmStateChangedEvent
  by_cases hr : ns = "running" <;> simp [hr]

/-- Equation for the per-alarm events of a surviving alarm. -/
theorem eventsForCurrentAlarm_some (now : Int) (prev : List Alarm)
    (c q : Alarm) (hl : lookupAlarm prev c.id = some q) :
    eventsForCurrentAlarm now prev c =
      if q.state ≠ c.state then
        sendAlarmStateChangedEvent now c q.state c.state
      else [] := by
  unfold eventsForCurrentAlarm
  rw [hl]

/-- Equation for the per-alarm events of a newly added alarm. -/
theorem eventsForCurrentAlarm_none (now : Int) (prev : List Alarm)
    (c : Alarm) (hl : lookupAlarm prev c.id = none) :
    eventsForCurrentAlarm now prev c =
      [Event.mk "alarmAdded" (serializeAlarm c)] := by
  unfold eventsForCurrentAlarm
  rw [hl]

/-- Shape of every event of the first diff loop: a state-changed or fired
event for a surviving alarm whose state differs, or an added event for a new
alarm. -/
theorem mem_perAlarm_shape (now : Int) (prev : List Alarm) :
    ∀ (cur : List Alarm) (e : Event),
      e ∈ perAlarmCurrentEvents now prev cur →
      (∃ c q, c ∈ cur ∧ lookupAlarm prev c.id = some q ∧
        q.state ≠ c.state ∧
        (e = Event.mk "alarmStateChanged" (eventData now c q.state c.state) ∨
         (e = Event.mk "alarmFired" (eventData now c q.state c.state) ∧
           c.state = "running"))) ∨
      (∃ c, c ∈ cur ∧ lookupAlarm prev c.id = none ∧
        e = Event.mk "alarmAdded" (serializeAlarm c)) := by
  intro cur
  induction cur with
  | nil => intro e he; cases he
  | cons c rest ih =>
      intro e he
      rw [perAlarmCurrentEvents, List.mem_append] at he
      rcases he with he | he
      · cases hl : lookupAlarm prev c.id with
        | some q =>
            rw [eventsForCurrentAlarm_some now prev c q hl] at he
            by_cases hs : q.state ≠ c.state
            · rw [if_pos hs] at he
              unfold sendAlarmStateChangedEvent at he
              rcases List.mem_cons.mp he with rfl | he2
              · exact Or.inl ⟨c, q, List.mem_cons_self c rest, hl, hs, Or.inl rfl⟩
              · by_cases hr : c.state = "running"
                · rw [if_pos hr] at he2
                  rcases List.mem_cons.mp he2 with rfl | he3
                  · exact Or.inl ⟨c, q, List.mem_cons_self c rest, hl, hs,
                      Or.inr ⟨rfl, hr⟩⟩
                  · cases he3
                · rw [if_neg hr] at he2
                  cases he2
            · rw [if_neg hs] at he
              cases he
        | none =>
            rw [eventsForCurrentAlarm_none now prev c hl] at he
            rcases List.mem_cons.mp he with rfl | he2
            · exact Or.inr ⟨c, List.mem_cons_self c rest, hl, rfl⟩
            · cases he2
      · rcases ih e he with ⟨c2, q, hc2, hl, hs, hsh⟩ | ⟨c2, hc2, hl, hsh⟩
        · exact Or.inl ⟨c2, q, List.mem_cons_of_mem c hc2, hl, hs, hsh⟩
        · exact Or.inr ⟨c2, List.mem_cons_of_mem c hc2, hl, hsh⟩

/-- Shape of every event of the second diff loop: a removed event for a
previous alarm missing from the current snapshot. -/
theorem mem_removed_shape (current : List Alarm) :
    ∀ (prevList : List Alarm) (e : Event),
      e ∈ removedEvents current prevList →
      ∃ q, q ∈ prevList ∧ lookupAlarm current q.id = none ∧
        e = Event.mk "alarmRemoved"
          [("id", Value.str q.id), ("lastState", Value.str q.state)] := by
  intro prevList
  induction prevList with
  | nil => intro e he; cases he
  | cons q rest ih =>
      intro e he
      rw [removedEvents, List.mem_append] at he
      rcases he with he | he
      · cases hl : lookupAlarm current q.id with
        | none =>
            rw [hl] at he
            simp only [Option.isNone_none, if_pos] at he
            rcases List.mem_cons.mp he with rfl | he2
            · exact ⟨q, List.mem_cons_self q rest, hl, rfl⟩
            · cases he2
        | some w =>
            rw [hl] at he
            simp only [Option.isNone_some] at he
            rw [if_neg (by simp)] at he
            cases he
      · rcases ih e he with ⟨w, hw, hl, hsh⟩
        exact ⟨w, List.mem_cons_of_mem q hw, hl, hsh⟩

/-- Every block of events for a member of the current snapshot is contained
in the output of the first diff loop. -/
theorem block_subset_perAlarm (now : Int) (prev : List Alarm) :
    ∀ (cur : List Alarm) (c : Alarm), c ∈ cur →
      ∀ e, e ∈ eventsForCurrentAlarm now prev c →
        e ∈ perAlarmCurrentEvents now prev cur := by
  intro cur
  induction cur with
  | nil => intro c hc; cases hc
  | cons x rest ih =>
      intro c hc e he
      rw [perAlarmCurrentEvents, List.mem_append]
      rcases List.mem_cons.mp hc with rfl | hc2
      · exact Or.inl he
      · exact Or.inr (ih c hc2 e he)

/-- A fired event appears in one sender block exactly when a state-changed
event with the same payload does, with new state running. -/
theorem fired_iff_sc_block (now : Int) (prev : List Alarm) (c : Alarm)
    (p : List (String × Value)) :
    Event.mk "alarmFired" p ∈ eventsForCurrentAlarm now prev c ↔
      (Event.mk "alarmStateChanged" p ∈ eventsForCurrentAlarm now prev c ∧
        ("newState", Value.str "running") ∈ p) := by
  cases hl : lookupAlarm prev c.id with
  | none => rw [eventsForCurrentAlarm_none now prev c hl]; simp
  | some q =>
      rw [eventsForCurrentAlarm_some now prev c q hl]
      by_cases hs : q.state ≠ c.state
      · rw [if_pos hs, fired_mem_send, sc_mem_send]
        constructor
        · rintro ⟨rfl, hr⟩
          exact ⟨rfl, (newState_mem_eventData now c q.state c.state
            "running").mpr hr.symm⟩
        · rintro ⟨rfl, hmem⟩
          exact ⟨rfl, ((newState_mem_eventData now c q.state c.state
            "running").mp hmem).symm⟩
      · rw [if_neg hs]
        simp

/-- A fired event appears in the first diff loop exactly when a state-changed
event with the same payload does, with new state running. -/
theorem fired_iff_sc_perAlarm (now : Int) (prev : List Alarm) :
    ∀ (cur : List Alarm) (p : List (String × Value)),
      Event.mk "alarmFired" p ∈ perAlarmCurrentEvents now prev cur ↔
        (Event.mk "alarmStateChanged" p ∈ perAlarmCurrentEvents now prev cur ∧
          ("newState", Value.str "running") ∈ p) := by
  intro cur
  induction cur with
  | nil => intro p; simp [perAlarmCurrentEvents]
  | cons c rest ih =>
      intro p
      rw [perAlarmCurrentEvents, List.mem_append, List.mem_append,
        fired_iff_sc_block, ih]
      tauto

/-- Equation for a successful diff. -/
theorem detectStateChanges_eq_some (now : Int) (prev cur : List Alarm)
    (hp : hasUniqueIds prev) (hc : hasUniqueIds cur) :
    detectStateChanges now prev cur =
      some (perAlarmCurrentEvents now prev cur ++ removedEvents cur prev) := by
  unfold detectStateChanges
  rw [if_pos ⟨hp, hc⟩]

/-- The handler result is marked crashed exactly when the diff trapped. -/
theorem handler_crashed_iff (now : Int) (prev cur : List Alarm) :
    (handleAlarmListChanged now prev cur).crashed = true ↔
      detectStateChanges now prev cur = none := by
  unfold handleAlarmListChanged
  cases detectStateChanges now prev cur <;> simp

/-- Every event of a successful diff is a per-alarm event. -/
theorem mem_detect_name (now : Int) (prev cur : List Alarm)
    (evs : List Event) (e : Event)
    (hd : detectStateChanges now prev cur = some evs) (he : e ∈ evs) :
    e.name = "alarmStateChanged" ∨ e.name = "alarmFired" ∨
      e.name = "alarmAdded" ∨ e.name = "alarmRemoved" := by
  unfold detectStateChanges at hd
  by_cases hu : hasUniqueIds prev ∧ hasUniqueIds cur
  · rw [if_pos hu] at hd
    cases hd
    rw [List.mem_append] at he
    rcases he with he | he
    · rcases mem_perAlarm_shape now prev cur e he with
        ⟨c, q, _, _, _, hsh⟩ | ⟨c, _, _, hsh⟩
      · rcases hsh with rfl | ⟨rfl, _⟩
        · exact Or.inl rfl
        · exact Or.inr (Or.inl rfl)
      · rw [hsh]
        exact Or.inr (Or.inr (Or.inl rfl))
    · rcases mem_removed_shape cur prev e he with ⟨q, _, _, rfl⟩
      exact Or.inr (Or.inr (Or.inr rfl))
  · rw [if_neg hu] at hd
    cases hd

/-- A snapshot diffed against itself yields no events in the first loop. -/
theorem perAlarmCurrentEvents_self_nil (now : Int) (A : List Alarm)
    (h : hasUniqueIds A) :
    ∀ curList, (∀ c ∈ curList, c ∈ A) →
      perAlarmCurrentEvents now A curList = [] := by
  intro curList
  induction curList with
  | nil => intro _; rfl
  | cons c rest ih =>
      intro hall
      have hc : c ∈ A := hall c (List.mem_cons_self c rest)
      rw [perAlarmCurrentEvents,
        eventsForCurrentAlarm_some now A c c (lookupAlarm_mem_self A h c hc),
        if_neg (by simp), List.nil_append]
      exact ih (fun x hx => hall x (List.mem_cons_of_mem c hx))

/-- The second diff loop yields no events when every previous alarm is still
found in the current snapshot. -/
theorem removedEvents_eq_nil (current : List Alarm) :
    ∀ prevList,
      (∀ p ∈ prevList, (lookupAlarm current p.id).isNone = false) →
      removedEvents current prevList = [] := by
  intro prevList
  induction prevList with
  | nil => intro _; rfl
  | cons p rest ih =>
      intro hall
      have h1 := hall p (List.mem_cons_self p rest)
      rw [removedEvents, h1, if_neg (by simp), List.nil_append]
      exact ih (fun q hq => hall q (List.mem_cons_of_mem p hq))

/-- Computation of `startAlarmObservation` when already observing. -/
theorem startAlarmObservation_observing (st : ModuleState) (handle : Nat)
    (cur : List Alarm) (now : Int) (h : st.isObserving = true) :
    startAlarmObservation st handle cur now = (st, TickResult.mk [] false) := by
  unfold startAlarmObservation
  rw [h]
  rfl

/-- The tick result returned by a fresh start is the handler run against the
cached snapshot. -/
theorem startAlarmObservation_snd (st : ModuleState) (handle : Nat)
    (cur : List Alarm) (now : Int) (h : st.isObserving = false) :
    (startAlarmObservation st handle cur now).2 =
      handleAlarmListChanged now st.lastKnownAlarms cur := by
  unfold startAlarmObservation
  rw [h]
  by_cases hc : (handleAlarmListChanged now st.lastKnownAlarms cur).crashed
  · simp only [Bool.false_eq_true, if_false, hc, if_true]
  · simp only [Bool.false_eq_true, if_false, hc]

/-- The state after a fresh start that did not trap: observing, observer
stored, snapshot cached. -/
theorem startAlarmObservation_fst (st : ModuleState) (handle : Nat)
    (cur : List Alarm) (now : Int) (h : st.isObserving = false)
    (hcr : (handleAlarmListChanged now st.lastKnownAlarms cur).crashed
      = false) :
    (startAlarmObservation st handle cur now).1 =
      ModuleState.mk (some handle) true cur := by
  unfold startAlarmObservation
  rw [h]
  simp only [Bool.false_eq_true, if_false, hcr]
  rw [show ({ st with isObserving := true } : ModuleState).lastKnownAlarms
    = st.lastKnownAlarms from rfl] at hcr ⊢
  rw [applyActions_handler]

/-- The state after a tick delivery: only the cached snapshot changes. -/
theorem observationTick_fst (st : ModuleState) (cur : List Alarm)
    (now : Int) :
    (observationTick st cur now).1 = { st with lastKnownAlarms := cur } :=
  applyActions_handler st now st.lastKnownAlarms cur

/-! Claims. -/

/-- Claim C1 is false on the code: in `handleAlarmListChanged` the assignment
`lastKnownAlarms = currentAlarms` is the first effect of the tick, before any
event is published — at previous snapshot `[]` and current snapshot `[X]` the
trace has a publish after the assignment — and consequently a tick that
failed mid-publish is not retried against the old snapshot: the next tick
diffs `[X]` against `[X]` and publishes only the list-changed event, so the
per-alarm diff is lost rather than reproduced. -/
theorem tick_assignment_order_cex :
    noPublishAfterSetLast
      (handleAlarmListChanged 0 [] [Alarm.mk "X" "scheduled" none]).actions
      = false ∧
    cycleEvents 0 [Alarm.mk "X" "scheduled" none]
        [Alarm.mk "X" "scheduled" none]
      = [listChangedEvent 0 [Alarm.mk "X" "scheduled" none]] := by
  exact ⟨rfl, rfl⟩

/-- Claim C1 (amended): the tick handler assigns the current snapshot to the
stored `lastKnownAlarms` before publishing anything — the assignment is the
first action of every tick trace. -/
theorem tick_assigns_snapshot_first (now : Int) (prev cur : List Alarm) :
    (handleAlarmListChanged now prev cur).actions.head? =
      some (Action.setLast cur) := by
  unfold handleAlarmListChanged
  cases detectStateChanges now prev cur <;> rfl

/-- Claim C2 is false on the code: in the cycle over previous snapshot `[]`
and current snapshot `[X]` the last published event is the `alarmAdded`
event, not the `alarmListChanged` event, which is published first. -/
theorem listChanged_last_cex :
    (cycleEvents 0 [] [Alarm.mk "X" "scheduled" none]).getLast?
      = some (Event.mk "alarmAdded"
          [("id", Value.str "X"), ("state", Value.str "scheduled")]) ∧
    (Event.mk "alarmAdded"
      [("id", Value.str "X"), ("state", Value.str "scheduled")]).name
      ≠ "alarmListChanged" := by
  exact ⟨rfl, by decide⟩

/-- Claim C2 (amended): the single `alarmListChanged` event of a cycle is
always the first published event, and no later event of the cycle is an
`alarmListChanged` event. -/
theorem listChanged_always_first (now : Int) (prev cur : List Alarm) :
    (cycleEvents now prev cur).head? = some (listChangedEvent now cur) ∧
    ∀ e ∈ (cycleEvents now prev cur).tail, e.name ≠ "alarmListChanged" := by
  cases hd : detectStateChanges now prev cur with
  | none =>
      rw [cycleEvents_eq_crash now prev cur hd]
      exact ⟨rfl, by intro e he; cases he⟩
  | some evs =>
      rw [cycleEvents_eq_detect now prev cur evs hd]
      refine ⟨rfl, ?_⟩
      intro e he hn
      rcases mem_detect_name now prev cur evs e hd he with h | h | h | h <;>
        rw [h] at hn <;> exact absurd hn (by decide)

/-- Witness for the amended claim C2 at a concrete cycle. -/
theorem listChanged_always_first_witness :
    (cycleEvents 0 [] [Alarm.mk "X" "scheduled" none]).head?
      = some (listChangedEvent 0 [Alarm.mk "X" "scheduled" none]) ∧
    (Event.mk "alarmAdded"
      [("id", Value.str "X"), ("state", Value.str "scheduled")]).name
      ≠ "alarmListChanged" := by
  refine ⟨(listChanged_always_first 0 [] [Alarm.mk "X" "scheduled" none]).1,
    (listChanged_always_first 0 [] [Alarm.mk "X" "scheduled" none]).2 _ ?_⟩
  decide

/-- Claim C3 is false on the code: on a snapshot holding two alarms with id
`X`, the tick publishes the `alarmListChanged` event and then hits the
`Dictionary(uniqueKeysWithValues:)` trap — a fatal process crash, not a
reported `InvariantViolation`, and not an event-free tick. -/
theorem duplicate_id_cex :
    (handleAlarmListChanged 0 []
      [Alarm.mk "X" "scheduled" none, Alarm.mk "X" "running" none]).crashed
      = true ∧
    cycleEvents 0 []
      [Alarm.mk "X" "scheduled" none, Alarm.mk "X" "running" none] ≠ [] := by
  exact ⟨rfl, by decide⟩

/-- Claim C3 (amended): for every current snapshot with a duplicate id, the
tick publishes exactly the `alarmListChanged` event and then crashes the
process on the duplicate-key trap; no per-alarm events are produced and no
catchable error is raised. -/
theorem duplicate_id_traps (now : Int) (prev cur : List Alarm)
    (h : ¬ hasUniqueIds cur) :
    (handleAlarmListChanged now prev cur).crashed = true ∧
    cycleEvents now prev cur = [listChangedEvent now cur] := by
  have hd : detectStateChanges now prev cur = none := by
    unfold detectStateChanges
    rw [if_neg (fun hu => h hu.2)]
  exact ⟨(handler_crashed_iff now prev cur).mpr hd,
    cycleEvents_eq_crash now prev cur hd⟩

/-- Witness for the amended claim C3 at a concrete duplicate snapshot. -/
theorem duplicate_id_traps_witness :
    ¬ hasUniqueIds
        [Alarm.mk "X" "scheduled" none, Alarm.mk "X" "running" none] ∧
    (handleAlarmListChanged 0 []
      [Alarm.mk "X" "scheduled" none, Alarm.mk "X" "running" none]).crashed
      = true := by
  have h : ¬ hasUniqueIds
      [Alarm.mk "X" "scheduled" none, Alarm.mk "X" "running" none] := by
    decide
  exact ⟨h, (duplicate_id_traps 0 [] _ h).1⟩

/-- Claim C4: diffing a duplicate-free snapshot against itself publishes no
per-alarm events — the cycle consists of exactly one `alarmListChanged`
event, whose total count is the snapshot size and whose scheduled count is
the number of alarms in state scheduled. -/
theorem diff_self_single_listChanged (now : Int) (A : List Alarm)
    (h : hasUniqueIds A) :
    cycleEvents now A A =
      [Event.mk "alarmListChanged"
        [("totalCount", Value.num (Int.ofNat A.length)),
         ("scheduledCount", Value.num (Int.ofNat
           (A.filter (fun a => a.state = "scheduled")).length)),
         ("timestamp", Value.num now)]] := by
  have hper : perAlarmCurrentEvents now A A = [] :=
    perAlarmCurrentEvents_self_nil now A h A (fun c hc => hc)
  have hrem : removedEvents A A = [] :=
    removedEvents_eq_nil A A (fun p hp => by
      rw [lookupAlarm_mem_self A h p hp]
      rfl)
  have hd : detectStateChanges now A A = some [] := by
    rw [detectStateChanges_eq_some now A A h h, hper, hrem]
    rfl
  rw [cycleEvents_eq_detect now A A [] hd]
  rfl

/-- Witness for claim C4 at a concrete snapshot. -/
theorem diff_self_single_listChanged_witness :
    hasUniqueIds [Alarm.mk "X" "scheduled" none, Alarm.mk "Y" "paused" none] ∧
    cycleEvents 7 [Alarm.mk "X" "scheduled" none, Alarm.mk "Y" "paused" none]
        [Alarm.mk "X" "scheduled" none, Alarm.mk "Y" "paused" none]
      = [Event.mk "alarmListChanged"
          [("totalCount", Value.num 2), ("scheduledCount", Value.num 1),
           ("timestamp", Value.num 7)]] := by
  exact ⟨by decide, diff_self_single_listChanged 7 _ (by decide)⟩

/-- Claim C5: an `alarmFired` event is published in a cycle exactly when an
`alarmStateChanged` event with the very same payload and new state `running`
is, the payloads (id, state, previousState, newState, fireDate, timestamp)
being shared verbatim between the two events. -/
theorem alarmFired_iff_stateChanged_running (now : Int)
    (prev cur : List Alarm) (p : List (String × Value)) :
    Event.mk "alarmFired" p ∈ cycleEvents now prev cur ↔
      (Event.mk "alarmStateChanged" p ∈ cycleEvents now prev cur ∧
        ("newState", Value.str "running") ∈ p) := by
  cases hd : detectStateChanges now prev cur with
  | none =>
      rw [cycleEvents_eq_crash now prev cur hd]
      constructor
      · intro hm
        rcases List.mem_cons.mp hm with heq | h2
        · exact absurd (congrArg Event.name heq)
            (show ¬("alarmFired" = "alarmListChanged") by decide)
        · cases h2
      · rintro ⟨hm, _⟩
        rcases List.mem_cons.mp hm with heq | h2
        · exact absurd (congrArg Event.name heq)
            (show ¬("alarmStateChanged" = "alarmListChanged") by decide)
        · cases h2
  | some evs =>
      have hsplit : evs =
          perAlarmCurrentEvents now prev cur ++ removedEvents cur prev := by
        unfold detectStateChanges at hd
        by_cases hu : hasUniqueIds prev ∧ hasUniqueIds cur
        · rw [if_pos hu] at hd
          cases hd
          rfl
        · rw [if_neg hu] at hd
          cases hd
      subst hsplit
      rw [cycleEvents_eq_detect now prev cur _ hd]
      have hfr : Event.mk "alarmFired" p ∉ removedEvents cur prev := by
        intro hmem
        rcases mem_removed_shape cur prev _ hmem with ⟨q, _, _, heq⟩
        exact absurd (congrArg Event.name heq)
          (show ¬("alarmFired" = "alarmRemoved") by decide)
      have hscr : Event.mk "alarmStateChanged" p ∉ removedEvents cur prev := by
        intro hmem
        rcases mem_removed_shape cur prev _ hmem with ⟨q, _, _, heq⟩
        exact absurd (congrArg Event.name heq)
          (show ¬("alarmStateChanged" = "alarmRemoved") by decide)
      rw [List.mem_cons, List.mem_cons, List.mem_append, List.mem_append]
      constructor
      · rintro (heq | hm | hm)
        · exact absurd (congrArg Event.name heq)
            (show ¬("alarmFired" = "alarmListChanged") by decide)
        · rcases (fired_iff_sc_perAlarm now prev cur p).mp hm with ⟨hsc, hns⟩
          exact ⟨Or.inr (Or.inl hsc), hns⟩
        · exact absurd hm hfr
      · rintro ⟨heq | hm | hm, hns⟩
        · exact absurd (congrArg Event.name heq)
            (show ¬("alarmStateChanged" = "alarmListChanged") by decide)
        · exact Or.inr (Or.inl
            ((fired_iff_sc_perAlarm now prev cur p).mpr ⟨hm, hns⟩))
        · exact absurd hm hscr

/-- Claim C6 fails on the code: the `alarmAdded` event of the cycle over
previous `[]` and current `[X]` carries no timestamp key at all (its payload
is the bare serialized alarm), while the claim requires a timestamp on every
published event. -/
theorem event_timestamp_cex :
    Event.mk "alarmAdded" [("id", Value.str "X"),
        ("state", Value.str "scheduled")] ∈
      cycleEvents 0 [] [Alarm.mk "X" "scheduled" none] ∧
    (∀ v, ("timestamp", v) ∉
      [("id", Value.str "X"), ("state", Value.str "scheduled")]) := by
  constructor
  · decide
  · intro v hv
    rcases List.mem_cons.mp hv with heq | hv2
    · exact absurd (congrArg Prod.fst heq)
        (show ¬("timestamp" = "id") by decide)
    · rcases List.mem_cons.mp hv2 with heq | hv3
      · exact absurd (congrArg Prod.fst heq)
          (show ¬("timestamp" = "state") by decide)
      · cases hv3

/-- Claim C6 (amended): `alarmStateChanged`, `alarmFired` and
`alarmListChanged` events carry the publish-time timestamp, while
`alarmAdded` and `alarmRemoved` events carry no timestamp field. -/
theorem event_timestamp_fields (now : Int) (prev cur : List Alarm)
    (e : Event) (he : e ∈ cycleEvents now prev cur) :
    ((e.name = "alarmStateChanged" ∨ e.name = "alarmFired" ∨
        e.name = "alarmListChanged") →
      ("timestamp", Value.num now) ∈ e.payload) ∧
    ((e.name = "alarmAdded" ∨ e.name = "alarmRemoved") →
      ∀ v, ("timestamp", v) ∉ e.payload) := by
  have hlc : ∀ hlceq : e = listChangedEvent now cur,
      ((e.name = "alarmStateChanged" ∨ e.name = "alarmFired" ∨
          e.name = "alarmListChanged") →
        ("timestamp", Value.num now) ∈ e.payload) ∧
      ((e.name = "alarmAdded" ∨ e.name = "alarmRemoved") →
        ∀ v, ("timestamp", v) ∉ e.payload) := by
    rintro rfl
    constructor
    · intro _
      simp [listChangedEvent]
    · rintro (hn | hn)
      · exact absurd hn (show ¬("alarmListChanged" = "alarmAdded") by decide)
      · exact absurd hn (show ¬("alarmListChanged" = "alarmRemoved") by decide)
  have hdet : ∀ evs, detectStateChanges now prev cur = some evs →
      e ∈ evs →
      ((e.name = "alarmStateChanged" ∨ e.name = "alarmFired" ∨
          e.name = "alarmListChanged") →
        ("timestamp", Value.num now) ∈ e.payload) ∧
      ((e.name = "alarmAdded" ∨ e.name = "alarmRemoved") →
        ∀ v, ("timestamp", v) ∉ e.payload) := by
    intro evs hd hmem
    have hsplit : evs =
        perAlarmCurrentEvents now prev cur ++ removedEvents cur prev := by
      unfold detectStateChanges at hd
      by_cases hu : hasUniqueIds prev ∧ hasUniqueIds cur
      · rw [if_pos hu] at hd
        cases hd
        rfl
      · rw [if_neg hu] at hd
        cases hd
    subst hsplit
    rw [List.mem_append] at hmem
    rcases hmem with hmem | hmem
    · rcases mem_perAlarm_shape now prev cur e hmem with
        ⟨c, q, _, _, _, hsh⟩ | ⟨c, _, _, hsh⟩
      · rcases hsh with rfl | ⟨rfl, _⟩
        · refine ⟨fun _ => timestamp_mem_eventData now c q.state c.state, ?_⟩
          rintro (hn | hn)
          · exact absurd hn
              (show ¬("alarmStateChanged" = "alarmAdded") by decide)
          · exact absurd hn
              (show ¬("alarmStateChanged" = "alarmRemoved") by decide)
        · refine ⟨fun _ => timestamp_mem_eventData now c q.state c.state, ?_⟩
          rintro (hn | hn)
          · exact absurd hn (show ¬("alarmFired" = "alarmAdded") by decide)
          · exact absurd hn (show ¬("alarmFired" = "alarmRemoved") by decide)
      · subst hsh
        constructor
        · rintro (hn | hn | hn)
          · exact absurd hn
              (show ¬("alarmAdded" = "alarmStateChanged") by decide)
          · exact absurd hn (show ¬("alarmAdded" = "alarmFired") by decide)
          · exact absurd hn
              (show ¬("alarmAdded" = "alarmListChanged") by decide)
        · intro _ v
          exact timestamp_not_mem_serializeAlarm c v
    · rcases mem_removed_shape cur prev e hmem with ⟨q, _, _, rfl⟩
      constructor
      · rintro (hn | hn | hn)
        · exact absurd hn
            (show ¬("alarmRemoved" = "alarmStateChanged") by decide)
        · exact absurd hn (show ¬("alarmRemoved" = "alarmFired") by decide)
        · exact absurd hn
            (show ¬("alarmRemoved" = "alarmListChanged") by decide)
      · intro _ v hv
        rcases List.mem_cons.mp hv with heq | hv2
        · exact absurd (congrArg Prod.fst heq)
            (show ¬("timestamp" = "id") by decide)
        · rcases List.mem_cons.mp hv2 with heq | hv3
          · exact absurd (congrArg Prod.fst heq)
              (show ¬("timestamp" = "lastState") by decide)
          · cases hv3
  cases hd : detectStateChanges now prev cur with
  | none =>
      rw [cycleEvents_eq_crash now prev cur hd] at he
      rcases List.mem_cons.mp he with heq | h2
      · exact hlc heq
      · cases h2
  | some evs =>
      rw [cycleEvents_eq_detect now prev cur evs hd] at he
      rcases List.mem_cons.mp he with heq | h2
      · exact hlc heq
      · exact hdet evs hd h2

/-- Witness for the amended claim C6: an added event of a concrete cycle has
no timestamp, while the list-changed event of the same cycle has one. -/
theorem event_timestamp_fields_witness :
    ("timestamp", Value.num 5) ∉ (Event.mk "alarmAdded"
      [("id", Value.str "X"), ("state", Value.str "scheduled")]).payload ∧
    ("timestamp", Value.num 5) ∈
      (listChangedEvent 5 [Alarm.mk "X" "scheduled" none]).payload := by
  constructor
  · exact (event_timestamp_fields 5 [] [Alarm.mk "X" "scheduled" none]
      (Event.mk "alarmAdded"
        [("id", Value.str "X"), ("state", Value.str "scheduled")])
      (by decide)).2 (Or.inl rfl) (Value.num 5)
  · exact (event_timestamp_fields 5 [] [Alarm.mk "X" "scheduled" none]
      (listChangedEvent 5 [Alarm.mk "X" "scheduled" none])
      (by decide)).1 (Or.inr (Or.inr rfl))

/-- Claim C7: for an alarm id present in both duplicate-free snapshots, a
state-changed event carrying the previous state, the new state and the
current serialized alarm (hence its fireDate) is published exactly when the
state differs; with equal states no `alarmStateChanged` event for that id
appears in the cycle, whatever happened to the fireDate. -/
theorem stateChanged_iff_state_differs (now : Int) (prev cur : List Alarm)
    (hp : hasUniqueIds prev) (hc : hasUniqueIds cur)
    (p c : Alarm) (hpm : p ∈ prev) (hcm : c ∈ cur) (hid : p.id = c.id) :
    (p.state ≠ c.state →
      Event.mk "alarmStateChanged" (eventData now c p.state c.state) ∈
        cycleEvents now prev cur) ∧
    (p.state = c.state →
      ∀ pay, Event.mk "alarmStateChanged" pay ∈ cycleEvents now prev cur →
        ("id", Value.str c.id) ∉ pay) := by
  have hlp : lookupAlarm prev c.id = some p := by
    rw [← hid]
    exact lookupAlarm_mem_self prev hp p hpm
  have hd := detectStateChanges_eq_some now prev cur hp hc
  rw [cycleEvents_eq_detect now prev cur _ hd]
  constructor
  · intro hs
    have hblock : Event.mk "alarmStateChanged"
        (eventData now c p.state c.state) ∈
          eventsForCurrentAlarm now prev c := by
      rw [eventsForCurrentAlarm_some now prev c p hlp, if_pos hs]
      exact (sc_mem_send now c p.state c.state _).mpr rfl
    exact List.mem_cons_of_mem _ (List.mem_append.mpr (Or.inl
      (block_subset_perAlarm now prev cur c hcm _ hblock)))
  · intro hs pay hmem hidmem
    rcases List.mem_cons.mp hmem with heq | hmem2
    · exact absurd (congrArg Event.name heq)
        (show ¬("alarmStateChanged" = "alarmListChanged") by decide)
    · rw [List.mem_append] at hmem2
      rcases hmem2 with hmem2 | hmem2
      · rcases mem_perAlarm_shape now prev cur _ hmem2 with
          ⟨c2, q2, hc2, hl2, hs2, hsh⟩ | ⟨c2, hc2, hl2, hsh⟩
        · rcases hsh with heq | ⟨heq, _⟩
          · have hpay : pay = eventData now c2 q2.state c2.state :=
              congrArg Event.payload heq
            rw [hpay] at hidmem
            have hcid : c.id = c2.id :=
              (id_mem_eventData now c2 _ _ c.id).mp hidmem
            have hceq : c2 = c :=
              eq_of_mem_of_same_id cur hc c2 c hc2 hcm hcid.symm
            subst hceq
            rw [hlp] at hl2
            injection hl2 with hl2
            subst hl2
            exact hs2 hs
          · exact absurd (congrArg Event.name heq)
              (show ¬("alarmStateChanged" = "alarmFired") by decide)
        · exact absurd (congrArg Event.name hsh)
            (show ¬("alarmStateChanged" = "alarmAdded") by decide)
      · rcases mem_removed_shape cur prev _ hmem2 with ⟨q, _, _, heq⟩
        exact absurd (congrArg Event.name heq)
          (show ¬("alarmStateChanged" = "alarmRemoved") by decide)

/-- Witness for claim C7 at a concrete transition from scheduled to running. -/
theorem stateChanged_iff_state_differs_witness :
    Event.mk "alarmStateChanged"
        (eventData 3 (Alarm.mk "X" "running" (some 10)) "scheduled"
          "running") ∈
      cycleEvents 3 [Alarm.mk "X" "scheduled" (some 10)]
        [Alarm.mk "X" "running" (some 10)] := by
  exact (stateChanged_iff_state_differs 3
    [Alarm.mk "X" "scheduled" (some 10)] [Alarm.mk "X" "running" (some 10)]
    (by decide) (by decide)
    (Alarm.mk "X" "scheduled" (some 10)) (Alarm.mk "X" "running" (some 10))
    (by decide) (by decide) rfl).1 (by decide)

/-- Claim C8: starting while already observing is a no-op (same state, no
events, no second subscription), and otherwise the start captures the
authority's current snapshot — delivered synchronously by the subscription —
stores it as the cached last snapshot, sets the observing flag and stores the
single observer handle, so one observation loop at most exists afterwards. -/
theorem startObserving_spec (st : ModuleState) (handle : Nat)
    (cur : List Alarm) (now : Int) :
    (st.isObserving = true →
      startAlarmObservation st handle cur now = (st, TickResult.mk [] false)) ∧
    (st.isObserving = false →
      (startAlarmObservation st handle cur now).2.crashed = false →
      ((startAlarmObservation st handle cur now).1.lastKnownAlarms = cur ∧
       (startAlarmObservation st handle cur now).1.isObserving = true ∧
       (startAlarmObservation st handle cur now).1.alarmObserver
         = some handle)) := by
  constructor
  · exact startAlarmObservation_observing st handle cur now
  · intro h hcr
    rw [startAlarmObservation_snd st handle cur now h] at hcr
    rw [startAlarmObservation_fst st handle cur now h hcr]
    exact ⟨rfl, rfl, rfl⟩

/-- Witness for claim C8: a fresh start stores the observer handle, and a
second start on the resulting state is a no-op. -/
theorem startObserving_spec_witness :
    (startAlarmObservation initialModuleState 1 [] 0).1.alarmObserver
      = some 1 ∧
    startAlarmObservation
        (startAlarmObservation initialModuleState 1 [] 0).1 2 [] 0
      = ((startAlarmObservation initialModuleState 1 [] 0).1,
         TickResult.mk [] false) := by
  constructor
  · exact ((startObserving_spec initialModuleState 1 [] 0).2 rfl rfl).2.2
  · exact (startObserving_spec
      (startAlarmObservation initialModuleState 1 [] 0).1 2 [] 0).1 (by decide)

/-- Claim C9: stopping clears the cached snapshot to empty, so the cycle
delivered by the restart subscription diffs the current snapshot against the
empty list and publishes an `alarmAdded` event for every alarm of the
(duplicate-free) current snapshot, even for alarms already reported before
the stop. -/
theorem restart_reannounces_all (st : ModuleState) (handle : Nat)
    (now : Int) (S : List Alarm) (hS : hasUniqueIds S) (a : Alarm)
    (ha : a ∈ S) :
    (stopAlarmObservation st).lastKnownAlarms = [] ∧
    Event.mk "alarmAdded" (serializeAlarm a) ∈
      publishedEvents
        ((startAlarmObservation (stopAlarmObservation st) handle S
          now).2.actions) := by
  refine ⟨rfl, ?_⟩
  rw [startAlarmObservation_snd _ handle S now rfl]
  show Event.mk "alarmAdded" (serializeAlarm a) ∈ cycleEvents now [] S
  have hd := detectStateChanges_eq_some now [] S List.nodup_nil hS
  rw [cycleEvents_eq_detect now [] S _ hd]
  refine List.mem_cons_of_mem _ (List.mem_append.mpr (Or.inl ?_))
  refine block_subset_perAlarm now [] S a ha _ ?_
  rw [eventsForCurrentAlarm_none now [] a rfl]
  exact List.mem_cons_self _ _

/-- Witness for claim C9: restart of a session that was observing one alarm
re-announces that alarm as added. -/
theorem restart_reannounces_all_witness :
    hasUniqueIds [Alarm.mk "X" "scheduled" none] ∧
    Event.mk "alarmAdded" (serializeAlarm (Alarm.mk "X" "scheduled" none)) ∈
      publishedEvents
        ((startAlarmObservation
          (stopAlarmObservation
            (ModuleState.mk (some 7) true [Alarm.mk "X" "scheduled" none]))
          1 [Alarm.mk "X" "scheduled" none] 0).2.actions) := by
  exact ⟨by decide,
    (restart_reannounces_all
      (ModuleState.mk (some 7) true [Alarm.mk "X" "scheduled" none]) 1 0
      [Alarm.mk "X" "scheduled" none] (by decide) _ (by decide)).2⟩

/-- Claim C10: in every module state reachable through the public lifecycle
operations of a live process, the observing flag is set exactly when an
observer subscription handle is stored. -/
theorem observing_iff_observer (st : ModuleState) (h : Reachable st) :
    st.isObserving = true ↔ (st.alarmObserver).isSome = true := by
  induction h with
  | init => simp [initialModuleState]
  | start st2 handle cur now hr hcr ih =>
      by_cases ho : st2.isObserving = true
      · rw [startAlarmObservation_observing st2 handle cur now ho]
        exact ih
      · have ho2 : st2.isObserving = false := by
          cases hb : st2.isObserving
          · rfl
          · exact absurd hb ho
        rw [startAlarmObservation_snd st2 handle cur now ho2] at hcr
        rw [startAlarmObservation_fst st2 handle cur now ho2 hcr]
        simp
  | stop st2 hr ih => simp [stopAlarmObservation]
  | deinitStep st2 hr ih => simp [moduleDeinit, stopAlarmObservation]
  | tick st2 cur now hr hcr ih =>
      rw [observationTick_fst st2 cur now]
      exact ih

/-- Witness for claim C10 at the initial module state. -/
theorem observing_iff_observer_witness :
    initialModuleState.isObserving = true ↔
      (initialModuleState.alarmObserver).isSome = true :=
  observing_iff_observer initialModuleState Reachable.init

end AlarmObservation
